import Mathlib

/-!
Shallow embedding of the resilient HTTP client of kuma-mieru
(`makeRequest` / `customFetch` and its option/header handling), together
with proofs of the behavioural properties stated in the specification.

The client is a single recursive function: one attempt is dispatched, and
its two callbacks decide the continuation — the response `end` handler
either follows a redirect, or finalises a `CustomResponse`; the `error`
handler either schedules a retry after a linear backoff, or propagates the
error. We embed those two decision points as pure step functions
(`onResponseEnd`, `onRequestError`) over explicit state
`(url, options, retryCount, redirectCount)`, and tie them together with a
fuel-indexed driver (`runRequest`) fed by an oracle listing the transport
outcome of each attempt.
-/

set_option autoImplicit false

namespace KumaMieru

/-- A Node.js transport error (`NodeError`): an `Error` with an optional
classification `code` such as `"ECONNRESET"`. -/
structure NodeError where
  name : String
  message : String
  code : Option String
deriving Repr, DecidableEq

/-- Value of one incoming response header in Node
(`string | string[]`). -/
inductive HeaderValue where
  | str (s : String)
  | arr (xs : List String)
deriving Repr, DecidableEq

/-- The raw response delivered by the transport to the `end` handler:
`res.statusCode` and `res.statusMessage` are both optional, `res.headers`
is the incoming header map (names already lower-cased by Node), and the
body is the concatenation of the received chunks. -/
structure RawResponse where
  statusCode : Option Nat
  statusMessage : Option String
  headers : List (String × HeaderValue)
  body : String
deriving Repr, DecidableEq

/-- `res.headers.location`: the first `location` entry of the incoming
header map, if any. -/
def RawResponse.location (res : RawResponse) : Option String :=
  match res.headers.find? (fun p => p.1 == "location") with
  | some (_, .str s) => some s
  | some (_, .arr xs) => xs.head?
  | none => none

/-- The caller-supplied `RequestInit & RetryOptions` object: every field
may be absent. Header maps are insertion-ordered association lists, as JS
objects are. -/
structure RequestOptions where
  method : Option String := none
  headers : Option (List (String × String)) := none
  body : Option String := none
  maxRetries : Option Nat := none
  retryDelay : Option Nat := none
  timeout : Option Nat := none
  followRedirects : Option Bool := none
  maxRedirects : Option Nat := none
deriving Repr, DecidableEq

/-- The process-wide `customFetchOptions` (headers with the product
identifier and optional `CF-Access-*` credentials, plus the env-derived
`maxRetries` / `retryDelay` / `timeout` numbers). The theorems quantify
over this record, so they hold for every environment configuration. -/
structure FetchDefaults where
  headers : List (String × String)
  maxRetries : Nat
  retryDelay : Nat
  timeout : Nat
deriving Repr, DecidableEq

/-- `DEFAULT_FOLLOW_REDIRECTS = true`. -/
def DEFAULT_FOLLOW_REDIRECTS : Bool := true

/-- `DEFAULT_MAX_REDIRECTS = 5`. -/
def DEFAULT_MAX_REDIRECTS : Nat := 5

/-- Effective `maxRetries` after destructuring with defaults. -/
def effMaxRetries (d : FetchDefaults) (o : RequestOptions) : Nat :=
  o.maxRetries.getD d.maxRetries

/-- Effective `retryDelay` after destructuring with defaults. -/
def effRetryDelay (d : FetchDefaults) (o : RequestOptions) : Nat :=
  o.retryDelay.getD d.retryDelay

/-- Effective `followRedirects` after destructuring with defaults. -/
def effFollowRedirects (o : RequestOptions) : Bool :=
  o.followRedirects.getD DEFAULT_FOLLOW_REDIRECTS

/-- Effective `maxRedirects` after destructuring with defaults. -/
def effMaxRedirects (o : RequestOptions) : Nat :=
  o.maxRedirects.getD DEFAULT_MAX_REDIRECTS

/-- `mergedOptions.headers`: the shallow spread
`{...customFetchOptions, ...fetchOptions}` keeps the caller's `headers`
object wholesale when present, else the default header set. -/
def mergedHeaders (d : FetchDefaults) (o : RequestOptions) : List (String × String) :=
  match o.headers with
  | some hs => hs
  | none => d.headers

/-- JS object assignment `m[k] = v`: replace the value of an existing key,
else append the new entry (insertion order preserved). -/
def objSet (m : List (String × String)) (k v : String) : List (String × String) :=
  if m.any (fun p => p.1 = k) then
    m.map (fun p => if p.1 = k then (p.1, v) else p)
  else
    m ++ [(k, v)]

/-- ASCII lower-casing of one character, modelling JS `toLowerCase` on the
header-name alphabet. -/
def charLower (c : Char) : Char :=
  if 'A' ≤ c && c ≤ 'Z' then Char.ofNat (c.toNat + 32) else c

/-- Models the JS string method `toLowerCase()` (standard library code,
not part of this repository). -/
def strLower (s : String) : String :=
  String.mk (s.data.map charLower)

/-- Does the first character list start with the second? -/
def listStartsWith : List Char → List Char → Bool
  | _, [] => true
  | [], _ :: _ => false
  | c :: cs, p :: ps => c == p && listStartsWith cs ps

/-- Models the JS string method `startsWith` (standard library code, not
part of this repository). -/
def strStartsWith (s p : String) : Bool :=
  listStartsWith s.data p.data

/-- `key.toLowerCase().startsWith('cf-access-')`: the vendor prefix test. -/
def isCfAccessKey (k : String) : Bool :=
  strStartsWith (strLower k) "cf-access-"

/-- The header name actually transmitted for a merged entry named `k`:
original case for `cf-access-*` names, lower-cased otherwise. -/
def sentHeaderName (k : String) : String :=
  if isCfAccessKey k then k else strLower k

/-- The header-normalisation loop of `makeRequest`: build the outgoing
`headers` object entry by entry, preserving case only for Cloudflare
Access headers. -/
def normalizeHeaders (hs : List (String × String)) : List (String × String) :=
  hs.foldl (fun acc p => objSet acc (sentHeaderName p.1) p.2) []

/-- `value.join(', ')` for array-valued headers, `value || ''` otherwise. -/
def joinHeaderValue : HeaderValue → String
  | .str s => s
  | .arr xs => String.intercalate ", " xs

/-- The terminal response object built by `makeRequest` (`CustomResponse`).
The buffered body is stored once; the `text` / `json` accessors below read
from it. -/
structure CustomResponse where
  ok : Bool
  status : Nat
  statusText : String
  headers : List (String × String)
  body : String
deriving Repr, DecidableEq

/-- Construction of the `CustomResponse` literal from the raw response:
`ok: res.statusCode ? res.statusCode >= 200 && res.statusCode < 300 : false`,
`status: res.statusCode || 0`, `statusText: res.statusMessage || ''`,
headers mapped with array values joined by `', '`, and the body buffer
captured. -/
def buildResponse (res : RawResponse) : CustomResponse :=
  { ok :=
      match res.statusCode with
      | some c => if c ≠ 0 then decide (200 ≤ c) && decide (c < 300) else false
      | none => false
    status :=
      match res.statusCode with
      | some c => c
      | none => 0
    statusText :=
      match res.statusMessage with
      | some m => m
      | none => ""
    headers := res.headers.map (fun p => (p.1, joinHeaderValue p.2))
    body := res.body }

/-- `text: async () => responseBody.toString('utf8')` — reads the captured
buffer; repeatable. -/
def CustomResponse.text (r : CustomResponse) : String :=
  r.body

/-- JS string truthiness of `res.headers.location`: `undefined` and the
empty string are falsy. -/
def locationTruthy : Option String → Bool
  | none => false
  | some s => !(s == "")

/-- `[301, 302, 303, 307, 308]`, the redirect statuses handled. -/
def redirectStatuses : List Nat := [301, 302, 303, 307, 308]

/-- Does the character list contain the given sub-list? -/
def listContainsSub : List Char → List Char → Bool
  | [], sub => sub.isEmpty
  | c :: cs, sub => listStartsWith (c :: cs) sub || listContainsSub cs sub

/-- The `"://"` scheme separator. -/
def schemeSep : List Char := [':', '/', '/']

/-- Split a URL at the first `"://"`: scheme part and remainder. -/
def splitScheme : List Char → List Char → Option (List Char × List Char)
  | [], _ => none
  | c :: cs, acc =>
    if listStartsWith (c :: cs) schemeSep then
      some (acc.reverse, (c :: cs).drop 3)
    else splitScheme cs (c :: acc)

/-- Everything of an authority-plus-path up to and including its last
slash (appending one when the path has none). -/
def dirOfRest (rest : List Char) : List Char :=
  if rest.contains '/' then (rest.reverse.dropWhile (fun c => c ≠ '/')).reverse
  else rest ++ ['/']

/-- Models Node's WHATWG `new URL(location, base).toString()` (standard
library code, not part of this repository): a location that carries a
scheme is absolute and taken as-is; a root-relative location is appended
to the base's origin; otherwise the location replaces the last segment of
the base's path. The claims only require that the redirect target is the
`Location` value resolved against the current URL by this one function. -/
def resolveUrl (location base : String) : String :=
  if listContainsSub location.data schemeSep then
    location
  else
    match splitScheme base.data [] with
    | none => location
    | some (scheme, rest) =>
      if strStartsWith location "/" then
        String.mk (scheme ++ schemeSep ++ rest.takeWhile (fun c => c ≠ '/') ++ location.data)
      else
        String.mk (scheme ++ schemeSep ++ dirOfRest rest ++ location.data)

/-- The header object forwarded on a 303 redirect: rebuilt from
`options.headers`, dropping every entry whose lower-cased name is
`content-type` or `content-length`, keeping original name case. -/
def redirect303Headers (hs : List (String × String)) : List (String × String) :=
  hs.foldl
    (fun acc p =>
      let lowerKey := strLower p.1
      if lowerKey ≠ "content-type" && lowerKey ≠ "content-length" then
        objSet acc p.1 p.2
      else acc)
    []

/-- The options forwarded to the recursive call when a redirect is
followed: for status 303 the method is forced to GET, the body dropped and
the headers filtered; every other redirect status forwards `options`
unchanged. -/
def redirectOptions (o : RequestOptions) (statusCode : Option Nat) : RequestOptions :=
  if statusCode == some 303 then
    { o with
      method := some "GET"
      body := none
      headers := some (redirect303Headers (match o.headers with | some hs => hs | none => [])) }
  else o

/-- The continuation decided by one attempt's callbacks. -/
inductive Step where
  /-- Resolve with a terminal `CustomResponse`. -/
  | finish (r : CustomResponse)
  /-- Recurse into `makeRequest redirectUrl redirectOptions retryCount (redirectCount+1)`. -/
  | followRedirect (url : String) (o : RequestOptions) (retryCount redirectCount : Nat)
  /-- Sleep `delayMs` then recurse into `makeRequest url options (retryCount+1) redirectCount`. -/
  | retryAfter (delayMs : Nat) (url : String) (o : RequestOptions) (retryCount redirectCount : Nat)
  /-- Reject with the original error object. -/
  | fail (e : NodeError)
deriving Repr, DecidableEq

/-- The `res.on('end')` handler of `makeRequest`: follow an eligible
redirect, else build the terminal response. The boolean records whether
the `Max redirects exceeded` warning was logged. -/
def onResponseEnd (url : String) (o : RequestOptions)
    (retryCount redirectCount : Nat) (res : RawResponse) : Step × Bool :=
  if effFollowRedirects o && redirectStatuses.contains (res.statusCode.getD 0) then
    if locationTruthy res.location && decide (redirectCount < effMaxRedirects o) then
      let location := res.location.getD ""
      (.followRedirect (resolveUrl location url) (redirectOptions o res.statusCode)
        retryCount (redirectCount + 1), false)
    else
      (.finish (buildResponse res), decide (effMaxRedirects o ≤ redirectCount))
  else
    (.finish (buildResponse res), false)

/-- `error.code` is one of the four transient-transport codes. -/
def retryableCode (c : Option String) : Bool :=
  c == some "ECONNRESET" || c == some "ETIMEDOUT" ||
    c == some "ECONNREFUSED" || c == some "EHOSTUNREACH"

/-- The `req.on('error')` handler of `makeRequest`: retry after
`retryDelay * (retryCount + 1)` when the code is transient and the budget
is not exhausted, else reject with the original error. -/
def onRequestError (d : FetchDefaults) (url : String) (o : RequestOptions)
    (retryCount redirectCount : Nat) (error : NodeError) : Step :=
  let shouldRetry := decide (retryCount < effMaxRetries d o) && retryableCode error.code
  if shouldRetry then
    .retryAfter (effRetryDelay d o * (retryCount + 1)) url o (retryCount + 1) redirectCount
  else
    .fail error

/-- JSON values, the results of `JSON.parse`. Numbers keep their source
lexeme, which avoids committing to a floating-point semantics. -/
inductive Json where
  | null
  | bool (b : Bool)
  | num (lexeme : String)
  | str (s : String)
  | arr (elems : List Json)
  | obj (fields : List (String × Json))

/-- The opening-brace character, `\x7b`. -/
def braceOpen : Char := Char.ofNat 123

/-- The closing-brace character, `\x7d`. -/
def braceClose : Char := Char.ofNat 125

/-- JSON insignificant whitespace. -/
def isJsonWs (c : Char) : Bool :=
  c = ' ' || c = '\t' || c = '\n' || c = '\r'

/-- Drop leading JSON whitespace. -/
def skipWs : List Char → List Char
  | c :: cs => if isJsonWs c then skipWs cs else c :: cs
  | [] => []

/-- Value of a hexadecimal digit. -/
def hexDigitVal (c : Char) : Option Nat :=
  if c.isDigit then some (c.toNat - 48)
  else if 'a' ≤ c && c ≤ 'f' then some (c.toNat - 87)
  else if 'A' ≤ c && c ≤ 'F' then some (c.toNat - 55)
  else none

/-- Parse the remainder of a JSON string literal (the opening quote is
already consumed), decoding escapes. -/
def parseJsonString : List Char → List Char → Except String (String × List Char)
  | [], _ => .error "Unterminated string in JSON"
  | '"' :: rest, acc => .ok (String.mk acc.reverse, rest)
  | '\\' :: rest, acc =>
    match rest with
    | '"' :: r => parseJsonString r ('"' :: acc)
    | '\\' :: r => parseJsonString r ('\\' :: acc)
    | '/' :: r => parseJsonString r ('/' :: acc)
    | 'b' :: r => parseJsonString r (Char.ofNat 8 :: acc)
    | 'f' :: r => parseJsonString r (Char.ofNat 12 :: acc)
    | 'n' :: r => parseJsonString r ('\n' :: acc)
    | 'r' :: r => parseJsonString r ('\r' :: acc)
    | 't' :: r => parseJsonString r ('\t' :: acc)
    | 'u' :: h1 :: h2 :: h3 :: h4 :: r =>
      match hexDigitVal h1, hexDigitVal h2, hexDigitVal h3, hexDigitVal h4 with
      | some a, some b, some c, some e =>
          parseJsonString r (Char.ofNat (((a * 16 + b) * 16 + c) * 16 + e) :: acc)
      | _, _, _, _ => .error "Bad unicode escape in JSON"
    | _ => .error "Bad escape in JSON"
  | c :: rest, acc => parseJsonString rest (c :: acc)

/-- Split a leading run of decimal digits off a character list. -/
def takeDigits : List Char → List Char × List Char
  | [] => ([], [])
  | c :: cs =>
    if c.isDigit then
      let p := takeDigits cs
      (c :: p.1, p.2)
    else ([], c :: cs)

/-- Parse an optional fraction part after the integer part of a number. -/
def parseNumFrac (lex cs : List Char) : Except String (List Char × List Char) :=
  match cs with
  | '.' :: r =>
    let p := takeDigits r
    if p.1.isEmpty then .error "Invalid number in JSON"
    else .ok (lex ++ '.' :: p.1, p.2)
  | _ => .ok (lex, cs)

/-- Parse an optional exponent part of a number. -/
def parseNumExp (lex cs : List Char) : Except String (List Char × List Char) :=
  match cs with
  | c :: r =>
    if c = 'e' || c = 'E' then
      let sp : List Char × List Char :=
        match r with
        | '+' :: r2 => (['+'], r2)
        | '-' :: r2 => (['-'], r2)
        | _ => ([], r)
      let p := takeDigits sp.2
      if p.1.isEmpty then .error "Invalid number in JSON"
      else .ok (lex ++ c :: sp.1 ++ p.1, p.2)
    else .ok (lex, cs)
  | [] => .ok (lex, cs)

/-- Parse a JSON number, returning its lexeme. -/
def parseJsonNumber (cs : List Char) : Except String (String × List Char) :=
  let sp : List Char × List Char :=
    match cs with
    | '-' :: r => (['-'], r)
    | _ => ([], cs)
  match sp.2 with
  | c :: rest =>
    if c = '0' then
      match parseNumFrac (sp.1 ++ ['0']) rest with
      | .error e => .error e
      | .ok (lex1, r1) =>
        match parseNumExp lex1 r1 with
        | .error e => .error e
        | .ok (lex2, r2) => .ok (String.mk lex2, r2)
    else if c.isDigit then
      let p := takeDigits (c :: rest)
      match parseNumFrac (sp.1 ++ p.1) p.2 with
      | .error e => .error e
      | .ok (lex1, r1) =>
        match parseNumExp lex1 r1 with
        | .error e => .error e
        | .ok (lex2, r2) => .ok (String.mk lex2, r2)
    else .error "Invalid number in JSON"
  | [] => .error "Invalid number in JSON"

mutual

/-- Parse one JSON value (fuel-indexed recursive descent). -/
def parseJsonValue : Nat → List Char → Except String (Json × List Char)
  | 0, _ => .error "JSON value too deeply nested"
  | fuel + 1, cs =>
    match skipWs cs with
    | [] => .error "Unexpected end of JSON input"
    | '"' :: rest =>
      match parseJsonString rest [] with
      | .ok (s, r) => .ok (.str s, r)
      | .error e => .error e
    | '[' :: rest => parseJsonArrayItems fuel rest []
    | 't' :: 'r' :: 'u' :: 'e' :: rest => .ok (.bool true, rest)
    | 'f' :: 'a' :: 'l' :: 's' :: 'e' :: rest => .ok (.bool false, rest)
    | 'n' :: 'u' :: 'l' :: 'l' :: rest => .ok (.null, rest)
    | c :: rest =>
      if c = braceOpen then parseJsonObjectItems fuel rest []
      else if c = '-' || c.isDigit then
        match parseJsonNumber (c :: rest) with
        | .ok (lex, r) => .ok (.num lex, r)
        | .error e => .error e
      else .error "Unexpected token in JSON"

/-- Parse the items of a JSON array after the opening bracket. -/
def parseJsonArrayItems : Nat → List Char → List Json → Except String (Json × List Char)
  | 0, _, _ => .error "JSON value too deeply nested"
  | fuel + 1, cs, acc =>
    match skipWs cs with
    | ']' :: rest =>
      if acc.isEmpty then .ok (.arr [], rest)
      else .error "Unexpected token in JSON array"
    | cs1 =>
      match parseJsonValue fuel cs1 with
      | .error e => .error e
      | .ok (v, r) =>
        match skipWs r with
        | ',' :: r2 => parseJsonArrayItems fuel r2 (v :: acc)
        | ']' :: r2 => .ok (.arr (v :: acc).reverse, r2)
        | _ => .error "Expected comma or bracket in JSON array"

/-- Parse the members of a JSON object after the opening brace. -/
def parseJsonObjectItems : Nat → List Char → List (String × Json) →
    Except String (Json × List Char)
  | 0, _, _ => .error "JSON value too deeply nested"
  | fuel + 1, cs, acc =>
    match skipWs cs with
    | [] => .error "Unexpected end of JSON input"
    | c :: rest =>
      if c = braceClose then
        if acc.isEmpty then .ok (.obj [], rest)
        else .error "Unexpected token in JSON object"
      else if c = '"' then
        match parseJsonString rest [] with
        | .error e => .error e
        | .ok (k, r) =>
          match skipWs r with
          | ':' :: r2 =>
            match parseJsonValue fuel r2 with
            | .error e => .error e
            | .ok (v, r3) =>
              match skipWs r3 with
              | ',' :: r4 => parseJsonObjectItems fuel r4 ((k, v) :: acc)
              | c2 :: r4 =>
                if c2 = braceClose then .ok (.obj ((k, v) :: acc).reverse, r4)
                else .error "Expected comma or brace in JSON object"
              | [] => .error "Unexpected end of JSON input"
          | _ => .error "Expected colon in JSON object"
      else .error "Expected string key in JSON object"

end

/-- Models the JS `JSON.parse` (standard library code, not part of this
repository): parse one JSON value and require only whitespace after it. -/
def JSON.parse (s : String) : Except String Json :=
  match parseJsonValue (2 * s.length + 8) s.data with
  | .error e => .error e
  | .ok (v, rest) =>
    if (skipWs rest).isEmpty then .ok v
    else .error "Unexpected non-whitespace character after JSON"

/-- `json: async () => { try { return JSON.parse(...) } catch ... }` — the
accessor parses the captured body on demand and wraps a parse failure in a
`Failed to parse JSON: ...` error. -/
def CustomResponse.json (r : CustomResponse) : Except String Json :=
  match JSON.parse r.body with
  | .ok v => .ok v
  | .error msg => .error ("Failed to parse JSON: " ++ msg)

/-- Outcome of a whole `makeRequest` call tree. -/
inductive Outcome where
  | success (r : CustomResponse)
  | failure (e : NodeError)
deriving Repr, DecidableEq

/-- Fuel-indexed driver for the recursive `makeRequest`: the oracle lists
the transport outcome of each successive attempt. Returns the final
outcome together with the list of backoff sleeps performed, or `none`
when fuel or oracle events run out. -/
def runRequest (d : FetchDefaults) : Nat → List (Except NodeError RawResponse) →
    String → RequestOptions → Nat → Nat → List Nat → Option (Outcome × List Nat)
  | 0, _, _, _, _, _, _ => none
  | _ + 1, [], _, _, _, _, _ => none
  | fuel + 1, ev :: rest, url, o, retryCount, redirectCount, delays =>
    match ev with
    | .error e =>
      match onRequestError d url o retryCount redirectCount e with
      | .retryAfter delayMs u o2 rc2 rd2 =>
          runRequest d fuel rest u o2 rc2 rd2 (delays ++ [delayMs])
      | .fail e2 => some (.failure e2, delays)
      | .finish r => some (.success r, delays)
      | .followRedirect u o2 rc2 rd2 => runRequest d fuel rest u o2 rc2 rd2 delays
    | .ok res =>
      match (onResponseEnd url o retryCount redirectCount res).1 with
      | .finish r => some (.success r, delays)
      | .followRedirect u o2 rc2 rd2 => runRequest d fuel rest u o2 rc2 rd2 delays
      | .retryAfter delayMs u o2 rc2 rd2 =>
          runRequest d fuel rest u o2 rc2 rd2 (delays ++ [delayMs])
      | .fail e2 => some (.failure e2, delays)

/-! ### Helper lemmas about the JS-object fold -/

theorem objSet_mem_self (m : List (String × String)) (k v : String) :
    ∃ w, (k, w) ∈ objSet m k v := by
  unfold objSet
  by_cases h : m.any (fun p => p.1 = k) = true
  · simp only [h, if_pos]
    rcases List.any_eq_true.1 h with ⟨p, hp, hpk⟩
    refine ⟨v, ?_⟩
    have : (k, v) = (fun q => if q.1 = k then (q.1, v) else q) p := by
      simp only [of_decide_eq_true hpk, if_pos]
    exact this ▸ List.mem_map_of_mem _ hp
  · simp only [h, if_neg, Bool.false_eq_true, not_false_eq_true]
    exact ⟨v, List.mem_append_right _ (List.mem_singleton.2 rfl)⟩

theorem objSet_mem_preserve (m : List (String × String)) (k v k' : String)
    (h : ∃ w, (k', w) ∈ m) : ∃ w, (k', w) ∈ objSet m k v := by
  rcases h with ⟨w, hw⟩
  unfold objSet
  by_cases hany : m.any (fun p => p.1 = k) = true
  · simp only [hany, if_pos]
    by_cases hk : k' = k
    · subst hk
      refine ⟨v, ?_⟩
      have : (k', v) = (fun q => if q.1 = k' then (q.1, v) else q) (k', w) := by simp
      exact this ▸ List.mem_map_of_mem _ hw
    · refine ⟨w, ?_⟩
      have : (k', w) = (fun q => if q.1 = k then (q.1, v) else q) (k', w) := by
        simp [hk]
      exact this ▸ List.mem_map_of_mem _ hw
  · simp only [hany, if_neg, Bool.false_eq_true, not_false_eq_true]
    exact ⟨w, List.mem_append_left _ hw⟩

theorem objSet_mem_src (m : List (String × String)) (k v k' w : String)
    (h : (k', w) ∈ objSet m k v) : (∃ w0, (k', w0) ∈ m) ∨ k' = k := by
  unfold objSet at h
  by_cases hany : m.any (fun p => p.1 = k) = true
  · simp only [hany, if_pos] at h
    rcases List.mem_map.1 h with ⟨p, hp, hpe⟩
    by_cases hpk : p.1 = k
    · rw [if_pos hpk] at hpe
      exact Or.inr ((congrArg Prod.fst hpe).symm.trans hpk)
    · rw [if_neg hpk] at hpe
      exact Or.inl ⟨w, hpe ▸ hp⟩
  · simp only [hany, if_neg, Bool.false_eq_true, not_false_eq_true] at h
    rcases List.mem_append.1 h with h1 | h1
    · exact Or.inl ⟨w, h1⟩
    · have := List.mem_singleton.1 h1
      exact Or.inr (congrArg Prod.fst this)

theorem normalizeHeaders_foldl_preserve (hs : List (String × String))
    (acc : List (String × String)) (k' : String) (h : ∃ w, (k', w) ∈ acc) :
    ∃ w, (k', w) ∈ hs.foldl (fun acc p => objSet acc (sentHeaderName p.1) p.2) acc := by
  induction hs generalizing acc with
  | nil => simpa using h
  | cons p hs ih =>
    simp only [List.foldl_cons]
    exact ih _ (objSet_mem_preserve _ _ _ _ h)

theorem normalizeHeaders_mem_sent (hs : List (String × String)) (k0 v0 : String)
    (h : (k0, v0) ∈ hs) : ∃ w, (sentHeaderName k0, w) ∈ normalizeHeaders hs := by
  unfold normalizeHeaders
  generalize ([] : List (String × String)) = acc
  induction hs generalizing acc with
  | nil => simp at h
  | cons p hs ih =>
    simp only [List.foldl_cons]
    rcases List.mem_cons.1 h with h1 | h1
    · subst h1
      exact normalizeHeaders_foldl_preserve hs _ _ (objSet_mem_self acc _ v0)
    · exact ih h1 _

theorem normalizeHeaders_foldl_src (hs : List (String × String))
    (acc : List (String × String)) (k w : String)
    (h : (k, w) ∈ hs.foldl (fun acc p => objSet acc (sentHeaderName p.1) p.2) acc) :
    (∃ w0, (k, w0) ∈ acc) ∨ ∃ k0 v0, (k0, v0) ∈ hs ∧ k = sentHeaderName k0 := by
  induction hs generalizing acc with
  | nil => exact Or.inl ⟨w, by simpa using h⟩
  | cons p hs ih =>
    simp only [List.foldl_cons] at h
    rcases ih _ h with h1 | h1
    · rcases h1 with ⟨w0, hw0⟩
      rcases objSet_mem_src _ _ _ _ _ hw0 with h2 | h2
      · exact Or.inl h2
      · exact Or.inr ⟨p.1, p.2, List.mem_cons_self .., h2⟩
    · rcases h1 with ⟨k0, v0, hk0, hke⟩
      exact Or.inr ⟨k0, v0, List.mem_cons_of_mem _ hk0, hke⟩

theorem normalizeHeaders_mem_src (hs : List (String × String)) (k w : String)
    (h : (k, w) ∈ normalizeHeaders hs) :
    ∃ k0 v0, (k0, v0) ∈ hs ∧ k = sentHeaderName k0 := by
  rcases normalizeHeaders_foldl_src hs [] k w h with h1 | h1
  · simp at h1
  · exact h1

theorem redirect303Headers_foldl_pred (hs : List (String × String))
    (acc : List (String × String))
    (hacc : ∀ k w, (k, w) ∈ acc → strLower k ≠ "content-type" ∧ strLower k ≠ "content-length")
    (k w : String)
    (h : (k, w) ∈ hs.foldl
      (fun acc p =>
        let lowerKey := strLower p.1
        if lowerKey ≠ "content-type" && lowerKey ≠ "content-length" then
          objSet acc p.1 p.2
        else acc) acc) :
    strLower k ≠ "content-type" ∧ strLower k ≠ "content-length" := by
  induction hs generalizing acc with
  | nil => exact hacc k w (by simpa using h)
  | cons p hs ih =>
    simp only [List.foldl_cons] at h
    by_cases hp : (decide (strLower p.1 ≠ "content-type") &&
        decide (strLower p.1 ≠ "content-length")) = true
    · rw [if_pos hp] at h
      have hb := Bool.and_eq_true_iff.mp hp
      refine ih _ ?_ h
      intro k2 w2 hmem
      rcases objSet_mem_src _ _ _ _ _ hmem with h2 | h2
      · rcases h2 with ⟨w0, hw0⟩
        exact hacc k2 w0 hw0
      · subst h2
        exact ⟨of_decide_eq_true hb.1, of_decide_eq_true hb.2⟩
    · rw [if_neg hp] at h
      exact ih _ hacc h

theorem redirect303Headers_no_body_headers (hs : List (String × String)) (k w : String)
    (h : (k, w) ∈ redirect303Headers hs) :
    strLower k ≠ "content-type" ∧ strLower k ≠ "content-length" := by
  unfold redirect303Headers at h
  exact redirect303Headers_foldl_pred hs [] (by intro k w h; simp at h) k w h

/-! ### Shared facts about `buildResponse` -/

theorem buildResponse_ok_iff (res : RawResponse) :
    (buildResponse res).ok = true ↔
      200 ≤ (buildResponse res).status ∧ (buildResponse res).status < 300 := by
  rcases res with ⟨sc, sm, hh, b⟩
  cases sc with
  | none => simp [buildResponse]
  | some c =>
    by_cases h0 : c = 0
    · subst h0
      simp [buildResponse]
    · simp only [buildResponse, h0, ne_eq, not_false_eq_true, if_true]
      constructor
      · intro h
        have h1 := Bool.and_eq_true_iff.mp h
        exact ⟨of_decide_eq_true h1.1, of_decide_eq_true h1.2⟩
      · intro h
        simp [h.1, h.2]

theorem buildResponse_status (res : RawResponse) :
    (buildResponse res).status = res.statusCode.getD 0 := by
  rcases res with ⟨sc, sm, hh, b⟩
  cases sc <;> rfl

theorem buildResponse_statusText (res : RawResponse) :
    (buildResponse res).statusText = res.statusMessage.getD "" := by
  rcases res with ⟨sc, sm, hh, b⟩
  cases sm <;> rfl

theorem buildResponse_ok_none (res : RawResponse) (h : res.statusCode = none) :
    (buildResponse res).ok = false := by
  rcases res with ⟨sc, sm, hh, b⟩
  cases h
  rfl

/-! ### The claims -/

/-- C6: for every terminal response, `ok` is true iff the `status` of the
`ResponseResult` lies in the interval `[200, 300)`, with no exceptions. -/
theorem spec_c6 (res : RawResponse) :
    (buildResponse res).ok = true ↔
      200 ≤ (buildResponse res).status ∧ (buildResponse res).status < 300 :=
  buildResponse_ok_iff res

/-- C10, counterexample: a raw response with `statusCode` absent but a
status message present yields `status = 0` and `ok = false`, yet its
`statusText` is the status message `"OK"`, not the empty string the claim
requires. -/
theorem spec_c10_counterexample :
    (buildResponse ⟨none, some "OK", [], ""⟩).status = 0 ∧
    (buildResponse ⟨none, some "OK", [], ""⟩).ok = false ∧
    (buildResponse ⟨none, some "OK", [], ""⟩).statusText = "OK" ∧
    "OK" ≠ "" := by
  refine ⟨rfl, rfl, rfl, by decide⟩

/-- C10, amended: when the transport reports no status code, the terminal
`ResponseResult` has `status = 0`, `ok = false`, and `statusText` equal to
the reported status message (the empty string when that is also absent);
the `end` handler still resolves with this `ResponseResult` rather than
raising an error. -/
theorem spec_c10_amended (res : RawResponse) (h : res.statusCode = none) :
    (buildResponse res).status = 0 ∧
    (buildResponse res).ok = false ∧
    (buildResponse res).statusText = res.statusMessage.getD "" ∧
    ∀ url o retryCount redirectCount,
      (onResponseEnd url o retryCount redirectCount res).1 =
        .finish (buildResponse res) := by
  refine ⟨by rw [buildResponse_status, h]; rfl, buildResponse_ok_none res h,
    buildResponse_statusText res, ?_⟩
  intro url o retryCount redirectCount
  have hc : ¬(res.statusCode.getD 0 ∈ redirectStatuses) := by
    rw [h]
    decide
  simp [onResponseEnd, hc]

/-- C10, witness: the amended claim evaluated on a concrete raw response
with `statusCode` absent and status message `"OK"`. -/
theorem spec_c10_witness :
    (buildResponse ⟨none, some "OK", [], ""⟩).status = 0 ∧
    (buildResponse ⟨none, some "OK", [], ""⟩).ok = false ∧
    (buildResponse ⟨none, some "OK", [], ""⟩).statusText = "OK" ∧
    (onResponseEnd "http://a/" {} 0 0 ⟨none, some "OK", [], ""⟩).1 =
      .finish (buildResponse ⟨none, some "OK", [], ""⟩) := by
  have h := spec_c10_amended ⟨none, some "OK", [], ""⟩ rfl
  exact ⟨h.1, h.2.1, h.2.2.1, h.2.2.2 "http://a/" {} 0 0⟩

/-- C5: every merged header entry whose name case-insensitively starts
with `cf-access-` is transmitted under its original name unchanged; every
other entry is transmitted under its lower-cased name; and every
transmitted header name arises this way from some merged entry. -/
theorem spec_c5 (hs : List (String × String)) (k v : String) (h : (k, v) ∈ hs) :
    (isCfAccessKey k = true →
      sentHeaderName k = k ∧ ∃ w, (k, w) ∈ normalizeHeaders hs) ∧
    (isCfAccessKey k = false →
      sentHeaderName k = strLower k ∧ ∃ w, (strLower k, w) ∈ normalizeHeaders hs) ∧
    ∀ k2 w, (k2, w) ∈ normalizeHeaders hs →
      ∃ k0 v0, (k0, v0) ∈ hs ∧ k2 = sentHeaderName k0 := by
  refine ⟨?_, ?_, ?_⟩
  · intro hcf
    have hsent : sentHeaderName k = k := by simp [sentHeaderName, hcf]
    exact ⟨hsent, hsent ▸ normalizeHeaders_mem_sent hs k v h⟩
  · intro hcf
    have hsent : sentHeaderName k = strLower k := by simp [sentHeaderName, hcf]
    exact ⟨hsent, hsent ▸ normalizeHeaders_mem_sent hs k v h⟩
  · intro k2 w hm
    exact normalizeHeaders_mem_src hs k2 w hm

/-- C5, witness: a `CF-Access-Client-Id` entry keeps its exact case in the
transmitted header set, while an `X-Custom` entry is transmitted
lower-cased. -/
theorem spec_c5_witness :
    (∃ w, ("CF-Access-Client-Id", w) ∈
      normalizeHeaders [("CF-Access-Client-Id", "x"), ("X-Custom", "y")]) ∧
    (∃ w, ("x-custom", w) ∈
      normalizeHeaders [("CF-Access-Client-Id", "x"), ("X-Custom", "y")]) := by
  have h1 := (spec_c5 [("CF-Access-Client-Id", "x"), ("X-Custom", "y")]
    "CF-Access-Client-Id" "x" (by simp)).1 (by decide)
  have h2 := (spec_c5 [("CF-Access-Client-Id", "x"), ("X-Custom", "y")]
    "X-Custom" "y" (by simp)).2.1 (by decide)
  refine ⟨h1.2, ?_⟩
  have he : strLower "X-Custom" = "x-custom" := by decide
  exact he ▸ h2.2

/-- C4: when a redirect-eligible response (redirect status, Location
header, `followRedirects` on) arrives with the redirect budget already
exhausted, the call does not fail: the limit warning is logged (second
component `true`) and that very response is returned as the terminal
`ResponseResult`, whose `ok` reflects its actual status. -/
theorem spec_c4 (url : String) (o : RequestOptions) (retryCount redirectCount : Nat)
    (res : RawResponse)
    (hstatus : redirectStatuses.contains (res.statusCode.getD 0) = true)
    (hfollow : effFollowRedirects o = true)
    (_hloc : ∃ l, res.location = some l)
    (hexh : effMaxRedirects o ≤ redirectCount) :
    onResponseEnd url o retryCount redirectCount res =
      (.finish (buildResponse res), true) ∧
    ((buildResponse res).ok = true ↔
      200 ≤ (buildResponse res).status ∧ (buildResponse res).status < 300) ∧
    (buildResponse res).status = res.statusCode.getD 0 := by
  refine ⟨?_, buildResponse_ok_iff res, buildResponse_status res⟩
  have hs2 : res.statusCode.getD 0 ∈ redirectStatuses := by
    simpa using hstatus
  have h1 : ¬(redirectCount < effMaxRedirects o) := Nat.not_lt.2 hexh
  simp [onResponseEnd, hfollow, hs2, h1, hexh]

/-- C4, witness: a sixth consecutive 302 with `maxRedirects = 5` is
returned as-is with the limit warning logged. -/
theorem spec_c4_witness :
    onResponseEnd "http://a/" {} 0 5
        ⟨some 302, some "Found", [("location", .str "http://b/")], ""⟩ =
      (.finish (buildResponse
        ⟨some 302, some "Found", [("location", .str "http://b/")], ""⟩), true) ∧
    (buildResponse ⟨some 302, some "Found", [("location", .str "http://b/")], ""⟩).ok
      = false := by
  have h := spec_c4 "http://a/" {} 0 5
    ⟨some 302, some "Found", [("location", .str "http://b/")], ""⟩
    (by decide) (by decide) ⟨"http://b/", rfl⟩ (by decide)
  refine ⟨h.1, by decide⟩

/-- C1: a failed attempt with a transient code (`ECONNRESET`, `ETIMEDOUT`,
`ECONNREFUSED`, `EHOSTUNREACH`) and `retryCount < maxRetries` sleeps
`retryDelay * (retryCount + 1)` and retries the same URL and options with
`retryCount + 1` and `redirectCount` unchanged; any other code, or an
exhausted budget, rejects immediately with the original error object. -/
theorem spec_c1 (d : FetchDefaults) (url : String) (o : RequestOptions)
    (retryCount redirectCount : Nat) (e : NodeError) (fuel : Nat)
    (rest : List (Except NodeError RawResponse)) (delays : List Nat) :
    (retryableCode e.code = true → retryCount < effMaxRetries d o →
      onRequestError d url o retryCount redirectCount e =
        .retryAfter (effRetryDelay d o * (retryCount + 1)) url o
          (retryCount + 1) redirectCount ∧
      runRequest d (fuel + 1) (.error e :: rest) url o retryCount redirectCount delays =
        runRequest d fuel rest url o (retryCount + 1) redirectCount
          (delays ++ [effRetryDelay d o * (retryCount + 1)])) ∧
    ((retryableCode e.code = false ∨ effMaxRetries d o ≤ retryCount) →
      onRequestError d url o retryCount redirectCount e = .fail e ∧
      runRequest d (fuel + 1) (.error e :: rest) url o retryCount redirectCount delays =
        some (.failure e, delays)) := by
  constructor
  · intro hcode hlt
    have hsr : (decide (retryCount < effMaxRetries d o) && retryableCode e.code) = true := by
      simp [hcode, hlt]
    have heq : onRequestError d url o retryCount redirectCount e =
        .retryAfter (effRetryDelay d o * (retryCount + 1)) url o
          (retryCount + 1) redirectCount := by
      simp [onRequestError, hsr]
    exact ⟨heq, by simp [runRequest, heq]⟩
  · intro h
    have hsr : (decide (retryCount < effMaxRetries d o) && retryableCode e.code) = false := by
      rcases h with h | h
      · simp [h]
      · simp [Nat.not_lt.2 h]
    have heq : onRequestError d url o retryCount redirectCount e = .fail e := by
      simp [onRequestError, hsr]
    exact ⟨heq, by simp [runRequest, heq]⟩

/-- C1, witness: with defaults `maxRetries = 3`, `retryDelay = 500`, a
reset at `retryCount = 1` retries after `1000` ms; the same reset at
`retryCount = 3` fails; a DNS failure (`ENOTFOUND`) fails immediately. -/
theorem spec_c1_witness :
    onRequestError ⟨[], 3, 500, 8000⟩ "http://a/" {} 1 0
        ⟨"Error", "boom", some "ECONNRESET"⟩ =
      .retryAfter 1000 "http://a/" {} 2 0 ∧
    onRequestError ⟨[], 3, 500, 8000⟩ "http://a/" {} 3 0
        ⟨"Error", "boom", some "ECONNRESET"⟩ =
      .fail ⟨"Error", "boom", some "ECONNRESET"⟩ ∧
    onRequestError ⟨[], 3, 500, 8000⟩ "http://a/" {} 0 0
        ⟨"Error", "boom", some "ENOTFOUND"⟩ =
      .fail ⟨"Error", "boom", some "ENOTFOUND"⟩ := by
  refine ⟨?_, ?_, ?_⟩
  · exact ((spec_c1 ⟨[], 3, 500, 8000⟩ "http://a/" {} 1 0
      ⟨"Error", "boom", some "ECONNRESET"⟩ 0 [] []).1 (by decide) (by decide)).1
  · exact ((spec_c1 ⟨[], 3, 500, 8000⟩ "http://a/" {} 3 0
      ⟨"Error", "boom", some "ECONNRESET"⟩ 0 [] []).2 (Or.inr (by decide))).1
  · exact ((spec_c1 ⟨[], 3, 500, 8000⟩ "http://a/" {} 0 0
      ⟨"Error", "boom", some "ENOTFOUND"⟩ 0 [] []).2 (Or.inl (by decide))).1

/-- C2: on a followed 303 redirect the forwarded options use method GET,
no body, and a header set with every `content-type`/`content-length`
entry (case-folded) removed; on a followed 301/302/307/308 redirect the
forwarded options are identical to the original request's options. -/
theorem spec_c2 (url : String) (o : RequestOptions) (retryCount redirectCount : Nat)
    (res : RawResponse)
    (hfollow : effFollowRedirects o = true)
    (hloc : locationTruthy res.location = true)
    (hlt : redirectCount < effMaxRedirects o) :
    (res.statusCode = some 303 →
      (redirectOptions o res.statusCode).method = some "GET" ∧
      (redirectOptions o res.statusCode).body = none ∧
      ∀ k w, (k, w) ∈ (redirectOptions o res.statusCode).headers.getD [] →
        strLower k ≠ "content-type" ∧ strLower k ≠ "content-length") ∧
    (∀ s, (s = 301 ∨ s = 302 ∨ s = 307 ∨ s = 308) → res.statusCode = some s →
      redirectOptions o res.statusCode = o) ∧
    (redirectStatuses.contains (res.statusCode.getD 0) = true →
      (onResponseEnd url o retryCount redirectCount res).1 =
        .followRedirect (resolveUrl (res.location.getD "") url)
          (redirectOptions o res.statusCode) retryCount (redirectCount + 1)) := by
  refine ⟨?_, ?_, ?_⟩
  · intro h303
    rw [h303]
    refine ⟨by simp [redirectOptions], by simp [redirectOptions], ?_⟩
    intro k w hmem
    simp only [redirectOptions, Option.some.injEq] at hmem
    simp at hmem
    exact redirect303Headers_no_body_headers _ k w hmem
  · intro s hsor h
    rw [h]
    have hne : ((some s : Option Nat) == some 303) = false := by
      rcases hsor with h1 | h1 | h1 | h1 <;> subst h1 <;> decide
    simp [redirectOptions, hne]
  · intro hs
    have hs2 : res.statusCode.getD 0 ∈ redirectStatuses := by
      simpa using hs
    simp [onResponseEnd, hfollow, hs2, hloc, hlt]

/-- C2, witness: a followed 303 of a POST with body and a
`Content-Type` header forwards GET, no body, and drops the body header; a
followed 302 forwards the options object unchanged. -/
theorem spec_c2_witness :
    (redirectOptions
        { method := some "POST", body := some "B",
          headers := some [("Content-Type", "t"), ("X", "y")] } (some 303)).method =
      some "GET" ∧
    (redirectOptions
        { method := some "POST", body := some "B",
          headers := some [("Content-Type", "t"), ("X", "y")] } (some 303)).body = none ∧
    redirectOptions
        { method := some "POST", body := some "B",
          headers := some [("Content-Type", "t"), ("X", "y")] } (some 302) =
      { method := some "POST", body := some "B",
        headers := some [("Content-Type", "t"), ("X", "y")] } := by
  have h3 := spec_c2 "http://a/"
      { method := some "POST", body := some "B",
        headers := some [("Content-Type", "t"), ("X", "y")] } 0 0
      ⟨some 303, none, [("location", .str "/next")], ""⟩ (by decide) (by decide) (by decide)
  have h2 := spec_c2 "http://a/"
      { method := some "POST", body := some "B",
        headers := some [("Content-Type", "t"), ("X", "y")] } 0 0
      ⟨some 302, none, [("location", .str "/next")], ""⟩ (by decide) (by decide) (by decide)
  exact ⟨(h3.1 rfl).1, (h3.1 rfl).2.1, h2.2.1 302 (Or.inr (Or.inl rfl)) rfl⟩

/-- C3, counterexample: a 302 response whose `Location` header is present
but empty satisfies every condition of the claim (redirect status,
`followRedirects` on, Location present, budget available), yet the code
does not follow it — JS string truthiness treats the empty `Location`
value as absent, and the response is finalised instead. -/
theorem spec_c3_counterexample :
    RawResponse.location ⟨some 302, some "Found", [("location", .str "")], ""⟩ =
      some "" ∧
    effFollowRedirects {} = true ∧
    redirectStatuses.contains 302 = true ∧
    (0 : Nat) < effMaxRedirects {} ∧
    (onResponseEnd "http://a/" {} 0 0
        ⟨some 302, some "Found", [("location", .str "")], ""⟩).1 =
      .finish (buildResponse ⟨some 302, some "Found", [("location", .str "")], ""⟩) ∧
    (onResponseEnd "http://a/" {} 0 0
        ⟨some 302, some "Found", [("location", .str "")], ""⟩).1 ≠
      .followRedirect (resolveUrl "" "http://a/") (redirectOptions {} (some 302)) 0 1 := by
  decide

/-- C3, amended: a redirect is followed iff the status is in
`{301, 302, 303, 307, 308}`, `followRedirects` is true, a `Location`
header is present with a non-empty value, and
`redirectCount < maxRedirects`; the followed request targets the
`Location` resolved against the current URL and carries
`redirectCount + 1` with `retryCount` unchanged. -/
theorem spec_c3_amended (url : String) (o : RequestOptions)
    (retryCount redirectCount : Nat) (res : RawResponse) :
    ((∃ u o2 rc2 rd2, (onResponseEnd url o retryCount redirectCount res).1 =
        .followRedirect u o2 rc2 rd2) ↔
      (effFollowRedirects o = true ∧
       res.statusCode.getD 0 ∈ redirectStatuses ∧
       (∃ l, res.location = some l ∧ l ≠ "") ∧
       redirectCount < effMaxRedirects o)) ∧
    (∀ l, res.location = some l → l ≠ "" →
      effFollowRedirects o = true →
      res.statusCode.getD 0 ∈ redirectStatuses →
      redirectCount < effMaxRedirects o →
      (onResponseEnd url o retryCount redirectCount res).1 =
        .followRedirect (resolveUrl l url) (redirectOptions o res.statusCode)
          retryCount (redirectCount + 1)) := by
  have hmain : ∀ l, res.location = some l → l ≠ "" →
      effFollowRedirects o = true →
      res.statusCode.getD 0 ∈ redirectStatuses →
      redirectCount < effMaxRedirects o →
      (onResponseEnd url o retryCount redirectCount res).1 =
        .followRedirect (resolveUrl l url) (redirectOptions o res.statusCode)
          retryCount (redirectCount + 1) := by
    intro l hl hlne hf hs hlt
    have hloc2 : locationTruthy res.location = true := by
      rw [hl]
      simp [locationTruthy, hlne]
    simp [onResponseEnd, hf, hs, hloc2, hlt, hl, locationTruthy, hlne]
  refine ⟨⟨?_, ?_⟩, hmain⟩
  · rintro ⟨u, o2, rc2, rd2, hstep⟩
    by_cases hf : effFollowRedirects o = true
    · by_cases hs : res.statusCode.getD 0 ∈ redirectStatuses
      · by_cases hloc2 : locationTruthy res.location = true
        · by_cases hlt : redirectCount < effMaxRedirects o
          · refine ⟨hf, hs, ?_, hlt⟩
            rcases hl : res.location with _ | l
            · rw [hl] at hloc2
              simp [locationTruthy] at hloc2
            · refine ⟨l, rfl, ?_⟩
              rw [hl] at hloc2
              simpa [locationTruthy] using hloc2
          · simp [onResponseEnd, hf, hs, hloc2, hlt] at hstep
        · simp [onResponseEnd, hf, hs, hloc2] at hstep
      · simp [onResponseEnd, hf, hs] at hstep
    · simp [onResponseEnd, hf] at hstep
  · rintro ⟨hf, hs, ⟨l, hl, hlne⟩, hlt⟩
    exact ⟨_, _, _, _, hmain l hl hlne hf hs hlt⟩

/-- C3, witness: a 302 with `Location: http://b/` at `redirectCount = 0`
is followed to the resolved target with `redirectCount = 1` and
`retryCount` unchanged. -/
theorem spec_c3_witness :
    (onResponseEnd "http://a/x" {} 0 0
        ⟨some 302, some "Found", [("location", .str "http://b/")], ""⟩).1 =
      .followRedirect (resolveUrl "http://b/" "http://a/x")
        (redirectOptions {} (some 302)) 0 1 :=
  (spec_c3_amended "http://a/x" {} 0 0
      ⟨some 302, some "Found", [("location", .str "http://b/")], ""⟩).2
    "http://b/" rfl (by decide) (by decide) (by decide) (by decide)

/-- C7: a completed HTTP response never schedules a retry and never
rejects — whatever its status, it either finalises as a `ResponseResult`
or follows a redirect that leaves `retryCount` untouched; a retry is
scheduled only by the error handler, and only for a transient transport
code within budget. -/
theorem spec_c7 (d : FetchDefaults) (url : String) (o : RequestOptions)
    (retryCount redirectCount : Nat) :
    (∀ res : RawResponse,
      (∃ u o2, (onResponseEnd url o retryCount redirectCount res).1 =
          .followRedirect u o2 retryCount (redirectCount + 1)) ∨
      (onResponseEnd url o retryCount redirectCount res).1 =
        .finish (buildResponse res)) ∧
    (∀ e : NodeError, ∀ delayMs u2 o2 rc2 rd2,
      onRequestError d url o retryCount redirectCount e =
          .retryAfter delayMs u2 o2 rc2 rd2 →
      retryableCode e.code = true ∧ retryCount < effMaxRetries d o) := by
  constructor
  · intro res
    by_cases hf : effFollowRedirects o = true
    · by_cases hs : res.statusCode.getD 0 ∈ redirectStatuses
      · by_cases hloc2 : locationTruthy res.location = true
        · by_cases hlt : redirectCount < effMaxRedirects o
          · exact Or.inl ⟨resolveUrl (res.location.getD "") url,
              redirectOptions o res.statusCode,
              by simp [onResponseEnd, hf, hs, hloc2, hlt]⟩
          · exact Or.inr (by simp [onResponseEnd, hf, hs, hloc2, hlt])
        · exact Or.inr (by simp [onResponseEnd, hf, hs, hloc2])
      · exact Or.inr (by simp [onResponseEnd, hf, hs])
    · exact Or.inr (by simp [onResponseEnd, hf])
  · intro e delayMs u2 o2 rc2 rd2 h
    by_cases hsr : (decide (retryCount < effMaxRetries d o) && retryableCode e.code) = true
    · have hb := Bool.and_eq_true_iff.mp hsr
      exact ⟨hb.2, of_decide_eq_true hb.1⟩
    · simp [onRequestError, hsr] at h

/-- C7, witness: a completed 500 response finalises as a `ResponseResult`
(no retry), and the retry the error handler schedules for a concrete
`ETIMEDOUT` at `retryCount = 0` indeed has a transient code within
budget. -/
theorem spec_c7_witness :
    (onResponseEnd "http://a/" {} 0 0
        ⟨some 500, some "Internal Server Error", [], "oops"⟩).1 =
      .finish (buildResponse ⟨some 500, some "Internal Server Error", [], "oops"⟩) ∧
    retryableCode (some "ETIMEDOUT") = true ∧
    0 < effMaxRetries ⟨[], 3, 500, 8000⟩ {} :=
  ⟨by decide,
   (spec_c7 ⟨[], 3, 500, 8000⟩ "http://a/" {} 0 0).2
     ⟨"Error", "timeout", some "ETIMEDOUT"⟩ 500 "http://a/" {} 1 0 (by decide)⟩

/-- C8: building the terminal response never fails whatever the body is
(its non-body fields do not depend on the body at all); the JSON accessor
returns the parsed value when the body parses, and raises the
`Failed to parse JSON` deserialisation error — distinct from transport
errors — only when it is invoked on an unparsable body. -/
theorem spec_c8 (res : RawResponse) :
    (∀ v, JSON.parse res.body = .ok v → (buildResponse res).json = .ok v) ∧
    (∀ m, JSON.parse res.body = .error m →
      (buildResponse res).json = .error ("Failed to parse JSON: " ++ m)) ∧
    (∀ b2, (buildResponse { res with body := b2 }).ok = (buildResponse res).ok ∧
      (buildResponse { res with body := b2 }).status = (buildResponse res).status ∧
      (buildResponse { res with body := b2 }).statusText = (buildResponse res).statusText ∧
      (buildResponse { res with body := b2 }).headers = (buildResponse res).headers) := by
  rcases res with ⟨sc, sm, hh, b⟩
  refine ⟨?_, ?_, ?_⟩
  · intro v h
    simp [CustomResponse.json, buildResponse, h]
  · intro m h
    simp [CustomResponse.json, buildResponse, h]
  · intro b2
    exact ⟨rfl, rfl, rfl, rfl⟩

/-- C8, witness: the accessor parses the valid body on demand, and wraps
the parser's complaint about an invalid body in the
`Failed to parse JSON` error. -/
theorem spec_c8_witness :
    (buildResponse ⟨some 200, some "OK", [], "\x7b\"a\":1\x7d"⟩).json =
      .ok (.obj [("a", .num "1")]) ∧
    (buildResponse ⟨some 200, some "OK", [], "not json"⟩).json =
      .error ("Failed to parse JSON: " ++ "Unexpected token in JSON") :=
  ⟨(spec_c8 ⟨some 200, some "OK", [], "\x7b\"a\":1\x7d"⟩).1 (.obj [("a", .num "1")]) rfl,
   (spec_c8 ⟨some 200, some "OK", [], "not json"⟩).2.1 "Unexpected token in JSON" rfl⟩

/-- C9: the body bytes are captured once in the terminal response; the
`text` accessor returns exactly those bytes and the `json` accessor is a
pure function of the same captured text, so repeated calls in any order
agree; on the body `\x7b"a":1\x7d` the text accessor returns the literal
string and the JSON accessor the parsed one-field object. -/
theorem spec_c9 :
    (∀ res : RawResponse,
      (buildResponse res).text = res.body ∧
      (buildResponse res).json =
        (match JSON.parse ((buildResponse res).text) with
         | .ok v => Except.ok v
         | .error m => Except.error ("Failed to parse JSON: " ++ m))) ∧
    (buildResponse ⟨some 200, some "OK", [], "\x7b\"a\":1\x7d"⟩).text =
      "\x7b\"a\":1\x7d" ∧
    (buildResponse ⟨some 200, some "OK", [], "\x7b\"a\":1\x7d"⟩).json =
      .ok (.obj [("a", .num "1")]) :=
  ⟨fun _ => ⟨rfl, rfl⟩, rfl, rfl⟩

end KumaMieru
